import Mathlib

/-!
Verification of the `wrds` client library (`wrds/sql.py`) against its
natural-language specification.

The program text is shallowly embedded below.  Strings are modelled as
`List Char` (`Str`), Python `str` methods (`replace`, `split`,
`readlines`, `int()`, `endswith`, colon-joining, truthiness) are given
executable Lean counterparts, and the relevant methods of the
`Connection` class are translated function by function.  Fallible
Python code (exceptions) is modelled with `Except`.
-/

/-- Strings of the embedded program are lists of characters. -/
abbrev Str := List Char

/-- Test `beginsWith pat s`: true when `pat` is an initial segment of `s`. -/
def beginsWith : Str → Str → Bool
  | [], _ => true
  | _ :: _, [] => false
  | p :: ps, c :: cs => p == c && beginsWith ps cs

/-- Test `containsSub pat s`: true when `pat` occurs contiguously inside `s`. -/
def containsSub (pat : Str) : Str → Bool
  | [] => pat.isEmpty
  | c :: cs => beginsWith pat (c :: cs) || containsSub pat cs

/-- Python `s.split(sep)` for a one-character separator: always returns at
least one (possibly empty) field. -/
def pySplit (sep : Char) : Str → List Str
  | [] => [[]]
  | c :: cs =>
    if c = sep then [] :: pySplit sep cs
    else
      match pySplit sep cs with
      | [] => [[c]]
      | l :: ls => (c :: l) :: ls

/-- Python `fd.readlines()`: splits a file's contents after each newline,
keeping the newline characters; a final fragment without a newline is kept. -/
def pyReadlines : Str → List Str
  | [] => []
  | c :: cs =>
    if c = '\n' then ['\n'] :: pyReadlines cs
    else
      match pyReadlines cs with
      | [] => [[c]]
      | l :: ls => (c :: l) :: ls

/-- Fuelled worker for Python `s.replace(old, new)`: scans left to right,
replacing non-overlapping occurrences of `pat` by `rep`. -/
def replaceAux (pat rep : Str) : Nat → Str → Str
  | 0, s => s
  | _ + 1, [] => []
  | fuel + 1, c :: cs =>
    if beginsWith pat (c :: cs) then
      rep ++ replaceAux pat rep fuel (cs.drop (pat.length - 1))
    else
      c :: replaceAux pat rep fuel cs

/-- Python `s.replace(old, new)` for a non-empty `old` pattern. -/
def replaceStr (pat rep s : Str) : Str :=
  if pat = [] then s else replaceAux pat rep s.length s

/-- Accumulate the numeric value of a digit string; `none` on a non-digit. -/
def digitsVal : Str → Option Nat
  | [] => some 0
  | c :: cs =>
    if c.isDigit then
      match digitsVal cs with
      | some v => some (v * 10 + (c.toNat - '0'.toNat))
      | none => none
    else none

/-- Value of a digit string read most-significant first. -/
def digitsValMSF (s : Str) : Option Nat :=
  if s = [] then none
  else s.foldl (fun acc c => match acc with
    | none => none
    | some v => if c.isDigit then some (v * 10 + (c.toNat - '0'.toNat)) else none)
    (some 0)

/-- Python `int(s)` on the standard forms: optional surrounding whitespace,
optional sign, then a non-empty run of decimal digits; `none` models a
raised `ValueError`. -/
def pyInt (s : Str) : Option Int :=
  let t := (((s.dropWhile Char.isWhitespace).reverse.dropWhile Char.isWhitespace).reverse : Str)
  match t with
  | '-' :: ds => (digitsValMSF ds).map (fun n => -(n : Int))
  | '+' :: ds => (digitsValMSF ds).map (fun n => (n : Int))
  | ds => (digitsValMSF ds).map (fun n => (n : Int))

/-- The decimal digit character of `n` for `n < 10`. -/
def digitChar10 (n : Nat) : Char :=
  if n = 0 then '0' else if n = 1 then '1' else if n = 2 then '2'
  else if n = 3 then '3' else if n = 4 then '4' else if n = 5 then '5'
  else if n = 6 then '6' else if n = 7 then '7' else if n = 8 then '8' else '9'

/-- Fuelled decimal rendering of a natural number. -/
def natToStrAux : Nat → Nat → Str
  | 0, _ => []
  | fuel + 1, n =>
    if n < 10 then [digitChar10 n]
    else natToStrAux fuel (n / 10) ++ [digitChar10 (n % 10)]

/-- Python `str(n)` for a non-negative integer. -/
def natToStr (n : Nat) : Str := natToStrAux (n + 1) n

/-- Python `str(i)` / `'{}'.format(i)` for an integer. -/
def intToStr : Int → Str
  | Int.ofNat n => natToStr n
  | Int.negSucc n => '-' :: natToStr (n + 1)

/-- Python `''.join` / `fd.writelines`: concatenation of a list of strings. -/
def joinAll : List Str → Str
  | [] => []
  | l :: ls => l ++ joinAll ls

/-- Python `','.join(columns)`. -/
def joinComma : List Str → Str
  | [] => []
  | [x] => x
  | x :: xs => x ++ ',' :: joinComma xs

/-- Python `s.endswith(suffix)`. -/
def endsWithStr (suffix s : Str) : Bool := suffix.isSuffixOf s

/-- Python truthiness of a `str`: non-empty strings are truthy. -/
def pyTruthyStr (s : Str) : Bool := !s.isEmpty

/-- Python truthiness of an `Optional[str]`: `None` and `""` are falsy. -/
def pyTruthyOptStr : Option Str → Bool
  | none => false
  | some s => pyTruthyStr s

/-! ## Embedding of `wrds/sql.py` -/

deriving instance DecidableEq for Except

/-- The two schema-authorization errors of `sql.py`: `NotSubscribedError`
(a `PermissionError`) and `SchemaNotFoundError` (a `FileNotFoundError`). -/
inductive SchemaError where
  | notSubscribed : SchemaError
  | schemaNotFound : SchemaError
deriving DecidableEq, Repr

/-- Exceptions raised by the pgpass merge loop: `IndexError` from
`fields[1]` / `fields[2]` on a short line, `ValueError` from `int()`. -/
inductive PgpassError where
  | indexError : PgpassError
  | valueError : PgpassError
deriving DecidableEq, Repr

/-- Errors escaping `get_row_count` / `__get_schema_for_view`: either a
schema-authorization error or the `TypeError` from subscripting `None`. -/
inductive RowCountError where
  | schemaErr : SchemaError → RowCountError
  | typeError : RowCountError
deriving DecidableEq, Repr

/-- Method `Connection.__check_schema_perms`: success (`True`) when the schema is
in the permission list, `NotSubscribedError` when it is only in the
catalog's full schema list, `SchemaNotFoundError` otherwise. -/
def check_schema_perms (schema_perm catalog : List Str) (schema : Str) :
    Except SchemaError Bool :=
  if schema ∈ schema_perm then Except.ok true
  else if schema ∈ catalog then Except.error SchemaError.notSubscribed
  else Except.error SchemaError.schemaNotFound

/-- The `schema_perm` list built in `Connection.__init__` from the rows of
the privilege-discovery query: first columns, filtered to drop names
ending in `_old` or `_all`. -/
def schema_perm_of (rows : List Str) : List Str :=
  rows.filter (fun x => !(endsWithStr "_old".toList x || endsWithStr "_all".toList x))

/-- The colon-substitution placeholder used by `__write_pgpass_file`. -/
def colonPlaceholder : Str := "##COLON##".toList

/-- The escaped-colon pattern `\:` as written to the pgpass file. -/
def escColon : Str := '\\' :: [':']

/-- Field-splitting of one pgpass line as done inside
`__write_pgpass_file`: substitute escaped colons by `##COLON##`, then
split on `:`. -/
def pgpassFields (line : Str) : List Str :=
  pySplit ':' (replaceStr escColon colonPlaceholder line)

/-- The test `fields[0] == hostname and int(fields[1]) == port and
fields[2] == dbname` of `__write_pgpass_file`, with Python's left-to-right
short-circuit evaluation and its `IndexError` / `ValueError` exceptions. -/
def lineMatches (host : Str) (port : Int) (db : Str) (line : Str) :
    Except PgpassError Bool :=
  let fields := pgpassFields line
  match fields with
  | [] => Except.ok false
  | f0 :: rest =>
    if f0 = host then
      match rest.get? 0 with
      | none => Except.error PgpassError.indexError
      | some f1 =>
        match pyInt f1 with
        | none => Except.error PgpassError.valueError
        | some n =>
          if n = port then
            match rest.get? 1 with
            | none => Except.error PgpassError.indexError
            | some f2 => Except.ok (decide (f2 = db))
          else Except.ok false
    else Except.ok false

/-- The replacement loop of `__write_pgpass_file`: each existing line whose
(hostname, port, dbname) triple matches is replaced by `newline`; all
other lines are kept verbatim. Exceptions abort the whole write. -/
def mergeLines (host : Str) (port : Int) (db : Str) (newline : Str) :
    List Str → Except PgpassError (List Str)
  | [] => Except.ok []
  | l :: ls => do
    let b ← lineMatches host port db l
    let rest ← mergeLines host port db newline ls
    Except.ok ((if b then newline else l) :: rest)

/-- The formatted pgpass line
`'{host}:{port}:{dbname}:{user}:{passwd}'` (with an already-escaped
password). -/
def pgpassLine (host : Str) (port : Int) (db user passwdEsc : Str) : Str :=
  host ++ ':' :: (intToStr port ++ ':' :: (db ++ ':' :: (user ++ ':' :: passwdEsc)))

/-- Method `Connection.__write_pgpass_file`: escape colons in the password; if the
file exists, run the replacement loop over its lines and write the result
back followed by one newline; otherwise write just the new line followed
by one newline.  The argument `file` is the current contents of the pgpass
file (`none` when the file does not exist); the result is the contents
written back. -/
def write_pgpass_file (host : Str) (port : Int) (db user passwd : Str)
    (file : Option Str) : Except PgpassError Str :=
  let passwdEsc := replaceStr [':'] escColon passwd
  let newline := pgpassLine host port db user passwdEsc
  match file with
  | some content => do
    let lines := pyReadlines content
    let newlines ← mergeLines host port db newline lines
    Except.ok (joinAll newlines ++ ['\n'])
  | none => Except.ok (newline ++ ['\n'])

/-- Method `Connection.__get_schema_for_view`: after the permission check, run the
dependency query (`depRows` are its result rows, first column) and return
`fetchone()[0]`.  When the query yields no rows, `fetchone()` is `None`
and subscripting it raises a `TypeError`.  `ok none` is the implicit
`None` returned if the permission check were falsy. -/
def get_schema_for_view (schema_perm catalog : List Str) (schema : Str)
    (depRows : List Str) : Except RowCountError (Option Str) :=
  match check_schema_perms schema_perm catalog schema with
  | Except.error e => Except.error (RowCountError.schemaErr e)
  | Except.ok b =>
    if b then
      match depRows.head? with
      | none => Except.error RowCountError.typeError
      | some r => Except.ok (some r)
    else Except.ok none

/-- Method `Connection.get_row_count`: resolve the base schema of the view; if the
result is truthy run the row-estimate query (`countResult`; `none` models
the query raising, caught and turned into `0`), else print a diagnostic
and return `None`. -/
def get_row_count (schema_perm catalog : List Str) (library table : Str)
    (depRows : List Str) (countResult : Option Int) :
    Except RowCountError (Option Int) :=
  match get_schema_for_view schema_perm catalog library depRows with
  | Except.error e => Except.error e
  | Except.ok schema =>
    if pyTruthyOptStr schema then
      match countResult with
      | some n => Except.ok (some n)
      | none => Except.ok (some 0)
    else Except.ok none

/-- The `cols` string of `Connection.get_table`: `'*'` when no column list
is given, otherwise `','.join(columns)`. -/
def colsOf : Option (List Str) → Str
  | none => ['*']
  | some cs => joinComma cs

/-- The SQL text composed by `Connection.get_table`:
`'select {cols} from {schema}.{table} {obsstmt} OFFSET {offset};'` where
`obsstmt` is empty for negative `obs` and `' LIMIT {obs}'` otherwise. -/
def get_table_stmt (library table : Str) (obs offset : Int)
    (columns : Option (List Str)) : Str :=
  let obsstmt : Str := if obs < 0 then [] else " LIMIT ".toList ++ intToStr obs
  "select ".toList ++ colsOf columns ++ " from ".toList ++ library ++ '.' :: table
    ++ ' ' :: (obsstmt ++ " OFFSET ".toList ++ intToStr offset ++ [';'])

/-- Method `Connection.get_table`: check the schema permission, then hand the
composed SELECT statement to `raw_sql`.  The returned string is the
statement text passed on. -/
def get_table (schema_perm catalog : List Str) (library table : Str)
    (obs offset : Int) (columns : Option (List Str)) : Except SchemaError Str :=
  match check_schema_perms schema_perm catalog library with
  | Except.error e => Except.error e
  | Except.ok _ => Except.ok (get_table_stmt library table obs offset columns)

/-- The credential fields of a `Connection` object: `_username` and
`_password` are `Optional[str]` (`none` models Python `None`). -/
structure ConnState where
  username : Option Str
  password : Option Str
  schema_perm : List Str
deriving DecidableEq, Repr

/-- Outcome of `Connection.__init__`: either a constructed object, or the
re-raised connection error together with the values of `_username` and
`_password` at the moment of the raise. -/
inductive ConnResult where
  | success : ConnState → ConnResult
  | failure : Option Str → Option Str → ConnResult
deriving DecidableEq, Repr

/-- Method `Connection.__init__`: `_password` starts as `""`; if the first
(passwordless) `connect` succeeds, the state keeps the keyword-argument
username and the empty password.  Otherwise credentials are prompted; if
the credential-embedded retry succeeds they are kept; if it also fails,
`_username` and `_password` are both set to `None` and the error is
re-raised.  On success the schema-permission list is loaded from the
privilege-query rows. -/
def connection_init (kwUsername : Option Str) (firstConnectOk : Bool)
    (promptUser promptPass : Str) (retryConnectOk : Bool)
    (queryRows : List Str) : ConnResult :=
  if firstConnectOk then
    ConnResult.success ⟨kwUsername, some [], schema_perm_of queryRows⟩
  else if retryConnectOk then
    ConnResult.success ⟨some promptUser, some promptPass, schema_perm_of queryRows⟩
  else
    ConnResult.failure none none

/-- The credential-resolution guard of `Connection.create_pgpass_file`:
`if (not self._username or not self._password)` — true exactly when the
interactive prompt is triggered before writing. -/
def pgpass_needs_prompt (username password : Option Str) : Bool :=
  !pyTruthyOptStr username || !pyTruthyOptStr password

/-! ## Claims about the authorization check, the permission filter, and the
constructor -/

/-- Claim C1: for every schema name the authorization check
`__check_schema_perms` yields exactly one of three mutually exclusive,
exhaustive outcomes: success (`True`) iff the name is in the permission
list; `NotSubscribedError` iff it is absent there but present in the
catalog; `SchemaNotFoundError` iff it is absent from both. -/
theorem wrds_C1_check_schema_perms_trichotomy (perm cat : List Str) (s : Str) :
    (check_schema_perms perm cat s = Except.ok true ↔ s ∈ perm) ∧
    (check_schema_perms perm cat s = Except.error SchemaError.notSubscribed ↔
      (s ∉ perm ∧ s ∈ cat)) ∧
    (check_schema_perms perm cat s = Except.error SchemaError.schemaNotFound ↔
      (s ∉ perm ∧ s ∉ cat)) := by
  unfold check_schema_perms
  by_cases h1 : s ∈ perm <;> by_cases h2 : s ∈ cat <;> simp [h1, h2]

/-- Witness for C1: all three outcomes realized at concrete inputs. -/
theorem wrds_C1_witness :
    check_schema_perms [['a']] [] ['a'] = Except.ok true ∧
    check_schema_perms [] [['b']] ['b'] = Except.error SchemaError.notSubscribed ∧
    check_schema_perms [] [] ['c'] = Except.error SchemaError.schemaNotFound :=
  ⟨(wrds_C1_check_schema_perms_trichotomy [['a']] [] ['a']).1.mpr (by decide),
   (wrds_C1_check_schema_perms_trichotomy [] [['b']] ['b']).2.1.mpr (by decide),
   (wrds_C1_check_schema_perms_trichotomy [] [] ['c']).2.2.mpr (by decide)⟩

/-- Claim C7: no schema name ending in `_old` or `_all` appears in the
stored `schema_perm` list, whatever the privilege query returned. -/
theorem wrds_C7_schema_perm_filters_reserved (rows : List Str) (s : Str)
    (hs : s ∈ schema_perm_of rows) :
    endsWithStr "_old".toList s = false ∧ endsWithStr "_all".toList s = false := by
  rw [schema_perm_of, List.mem_filter] at hs
  have h2 := hs.2
  simp only [Bool.not_eq_true', Bool.or_eq_false_iff] at h2
  exact h2

/-- Witness for C7 at a concrete privilege-query result. -/
theorem wrds_C7_witness :
    endsWithStr "_old".toList "crsp".toList = false ∧
    endsWithStr "_all".toList "crsp".toList = false :=
  wrds_C7_schema_perm_filters_reserved
    ["crsp".toList, "crsp_old".toList, "crsp_all".toList] "crsp".toList (by decide)

/-- Claim C9: when both the passwordless attempt and the
credential-embedded retry fail, `Connection.__init__` clears `_username`
and `_password` (both `None`) and re-raises, leaving no partial-credential
state. -/
theorem wrds_C9_init_failure_clears_credentials (kwU : Option Str)
    (pU pP : Str) (rows : List Str) :
    connection_init kwU false pU pP false rows = ConnResult.failure none none := rfl

/-- Claim C10: after a successful passwordless (trusted) connection the
stored password is the empty string, so `create_pgpass_file`'s guard
`if (not self._username or not self._password)` always triggers the
interactive credential prompt. -/
theorem wrds_C10_trusted_connection_prompts (kwU : Option Str) (pU pP : Str)
    (retryOk : Bool) (rows : List Str) (st : ConnState)
    (h : connection_init kwU true pU pP retryOk rows = ConnResult.success st) :
    st.password = some [] ∧ pgpass_needs_prompt st.username st.password = true := by
  unfold connection_init at h
  simp only [if_true, ConnResult.success.injEq] at h
  subst h
  refine ⟨rfl, ?_⟩
  simp [pgpass_needs_prompt, pyTruthyOptStr, pyTruthyStr]

/-- Witness for C10 at a concrete trusted connection. -/
theorem wrds_C10_witness :
    (⟨some ['u'], some [], []⟩ : ConnState).password = some [] ∧
    pgpass_needs_prompt (some ['u']) (some []) = true :=
  wrds_C10_trusted_connection_prompts (some ['u']) ['p'] ['q'] false []
    ⟨some ['u'], some [], []⟩ rfl

/-! ## Claims about the pgpass merge-write and the row count (code bugs) -/

/-- Claim C2 (code evaluated at the failing input): with an existing pgpass
file `other:5432:db2:u2:p2\n` whose triple differs from the connection's
`(h, 9737, wrds)`, `__write_pgpass_file` writes back only the old line
plus a newline — no entry for the current connection is ever appended. -/
theorem wrds_C2_no_append_on_mismatch :
    write_pgpass_file "h".toList 9737 "wrds".toList "u".toList "p".toList
      (some "other:5432:db2:u2:p2\n".toList)
      = Except.ok "other:5432:db2:u2:p2\n\n".toList ∧
    (∀ l ∈ pyReadlines "other:5432:db2:u2:p2\n\n".toList,
      lineMatches "h".toList 9737 "wrds".toList l ≠ Except.ok true) ∧
    containsSub "h:9737:wrds".toList "other:5432:db2:u2:p2\n\n".toList = false := by
  refine ⟨by decide, by decide, by decide⟩

/-- Claim C3 (code evaluated at the failing input): replacing the matching
first line drops its trailing newline, so the following
`hostB:5432:db2:u2:p2` entry is concatenated onto the replacement and is
no longer a line of the resulting file. -/
theorem wrds_C3_following_line_corrupted :
    write_pgpass_file "hostA".toList 5432 "db1".toList "nu".toList "np".toList
      (some "hostA:5432:db1:u:p\nhostB:5432:db2:u2:p2\n".toList)
      = Except.ok "hostA:5432:db1:nu:nphostB:5432:db2:u2:p2\n\n".toList ∧
    pyReadlines "hostA:5432:db1:nu:nphostB:5432:db2:u2:p2\n\n".toList
      = ["hostA:5432:db1:nu:nphostB:5432:db2:u2:p2\n".toList, "\n".toList] ∧
    "hostB:5432:db2:u2:p2\n".toList
      ∉ pyReadlines "hostA:5432:db1:nu:nphostB:5432:db2:u2:p2\n\n".toList := by
  refine ⟨by decide, by decide, by decide⟩

/-- Claim C4 (code evaluated at the failing input): starting from a file
with no matching line and writing the same tuple twice leaves zero lines
whose `(hostname, port, dbname)` key matches — not exactly one. -/
theorem wrds_C4_double_write_zero_matching_lines :
    write_pgpass_file "h".toList 9737 "wrds".toList "u".toList "p".toList
      (some "other:5432:db2:u2:p2\n".toList)
      = Except.ok "other:5432:db2:u2:p2\n\n".toList ∧
    write_pgpass_file "h".toList 9737 "wrds".toList "u".toList "p".toList
      (some "other:5432:db2:u2:p2\n\n".toList)
      = Except.ok "other:5432:db2:u2:p2\n\n\n".toList ∧
    ((pyReadlines "other:5432:db2:u2:p2\n\n\n".toList).filter
      (fun l => lineMatches "h".toList 9737 "wrds".toList l
        == Except.ok true)).length = 0 := by
  refine ⟨by decide, by decide, by decide⟩

/-- Claim C5 (code evaluated at the failing input): on an authorized
schema whose view-dependency query returns no rows, `get_row_count` does
not return the `None` sentinel — `fetchone()[0]` inside
`__get_schema_for_view` raises a `TypeError` that propagates. -/
theorem wrds_C5_row_count_raises_instead_of_none :
    get_row_count [['l']] [['l']] ['l'] ['t'] [] none
      = Except.error RowCountError.typeError ∧
    get_row_count [['l']] [['l']] ['l'] ['t'] [] none ≠ Except.ok none := by
  refine ⟨by decide, by decide⟩

/-! ## Substring and digit lemmas for the generated SQL text -/

theorem beginsWith_append_self (p t : Str) : beginsWith p (p ++ t) = true := by
  induction p with
  | nil => rfl
  | cons c cs ih => simp [beginsWith, ih]

theorem containsSub_append_self (pat rest : Str) :
    containsSub pat (pat ++ rest) = true := by
  cases pat with
  | nil =>
    cases rest with
    | nil => rfl
    | cons c cs => simp [containsSub, beginsWith]
  | cons p ps =>
    simp only [containsSub, Bool.or_eq_true]
    exact Or.inl (by simpa using beginsWith_append_self (p :: ps) rest)

theorem containsSub_cons (pat : Str) (c : Char) (t : Str)
    (h : containsSub pat t = true) : containsSub pat (c :: t) = true := by
  simp [containsSub, h]

theorem containsSub_append_right (pat s t : Str)
    (h : containsSub pat t = true) : containsSub pat (s ++ t) = true := by
  induction s with
  | nil => exact h
  | cons c cs ih => simpa using containsSub_cons pat c (cs ++ t) ih

theorem containsSub_head_mem (c : Char) (cs s : Str)
    (h : containsSub (c :: cs) s = true) : c ∈ s := by
  induction s with
  | nil => simp [containsSub] at h
  | cons x xs ih =>
    simp only [containsSub, beginsWith, Bool.or_eq_true, Bool.and_eq_true,
      beq_iff_eq] at h
    rcases h with ⟨h1, _⟩ | h2
    · rw [h1]; exact List.mem_cons_self _ _
    · exact List.mem_cons_of_mem _ (ih h2)

theorem digitChar10_mem (n : Nat) : digitChar10 n ∈ "0123456789".toList := by
  unfold digitChar10
  repeat' split
  all_goals decide

theorem natToStrAux_mem : ∀ (f n : Nat) (c : Char),
    c ∈ natToStrAux f n → c ∈ "0123456789".toList
  | 0, n, c => by simp [natToStrAux]
  | f + 1, n, c => by
    unfold natToStrAux
    split
    · intro h
      rw [List.mem_singleton.mp h]
      exact digitChar10_mem n
    · intro h
      rcases List.mem_append.mp h with h | h
      · exact natToStrAux_mem f (n / 10) c h
      · rw [List.mem_singleton.mp h]
        exact digitChar10_mem (n % 10)

theorem intToStr_mem (c : Char) (i : Int) (h : c ∈ intToStr i) :
    c ∈ "-0123456789".toList := by
  cases i with
  | ofNat n =>
    have := natToStrAux_mem (n + 1) n c h
    simp only [List.mem_cons] at this ⊢
    tauto
  | negSucc n =>
    rcases List.mem_cons.mp h with h | h
    · rw [h]; exact List.mem_cons_self _ _
    · have := natToStrAux_mem (n + 2) (n + 1) c h
      simp only [List.mem_cons] at this ⊢
      tauto

theorem notL_intToStr (i : Int) : 'L' ∉ intToStr i :=
  fun h => absurd (intToStr_mem 'L' i h) (by decide)

theorem containsSub_limit500 (r : Str) :
    containsSub "LIMIT 500".toList (" LIMIT ".toList ++ (intToStr 500 ++ r)) = true := by
  have e : (" LIMIT ".toList ++ (intToStr 500 ++ r) : Str)
      = ' ' :: ("LIMIT 500".toList ++ r) := by
    rw [show (intToStr 500 : Str) = "500".toList from by decide, ← List.append_assoc,
      ← List.cons_append]
    congr 1
  rw [e]
  exact containsSub_cons _ _ _ (containsSub_append_self _ _)

/-- Claim C8: for every authorized schema, `get_table` generates a SELECT
statement with no LIMIT clause when `obs` is negative, with `LIMIT 500`
when `obs = 500`, and with `OFFSET 100` when `offset = 100` (identifier
arguments are assumed not to contain the letter `L`, so that no LIMIT
text can come from them). -/
theorem wrds_C8_get_table_statement (perm cat : List Str) (lib tab : Str)
    (cols : Option (List Str)) (obs offset : Int)
    (hperm : lib ∈ perm)
    (hlib : 'L' ∉ lib) (htab : 'L' ∉ tab) (hcols : 'L' ∉ colsOf cols) :
    (obs < 0 →
      get_table perm cat lib tab obs offset cols
        = Except.ok (get_table_stmt lib tab obs offset cols) ∧
      containsSub "LIMIT".toList (get_table_stmt lib tab obs offset cols) = false) ∧
    (get_table perm cat lib tab 500 offset cols
        = Except.ok (get_table_stmt lib tab 500 offset cols) ∧
      containsSub "LIMIT 500".toList (get_table_stmt lib tab 500 offset cols) = true) ∧
    (get_table perm cat lib tab obs 100 cols
        = Except.ok (get_table_stmt lib tab obs 100 cols) ∧
      containsSub "OFFSET 100".toList (get_table_stmt lib tab obs 100 cols) = true) := by
  refine ⟨fun hobs => ⟨by simp [get_table, check_schema_perms, hperm], ?_⟩,
    ⟨by simp [get_table, check_schema_perms, hperm], ?_⟩,
    ⟨by simp [get_table, check_schema_perms, hperm], ?_⟩⟩
  · have hL : 'L' ∉ get_table_stmt lib tab obs offset cols := by
      unfold get_table_stmt
      rw [if_pos hobs]
      intro hmem
      simp only [List.nil_append, List.append_assoc, List.cons_append, List.mem_append,
        List.mem_cons] at hmem
      rcases hmem with h | h | h | h | h | h | h | h | h | h | h
      · exact absurd h (by decide)
      · exact hcols h
      · exact absurd h (by decide)
      · exact hlib h
      · exact absurd h (by decide)
      · exact htab h
      · exact absurd h (by decide)
      · exact absurd h (by decide)
      · exact notL_intToStr offset h
      · exact absurd h (by decide)
      · exact absurd h (by decide)
    cases hcontains : containsSub "LIMIT".toList (get_table_stmt lib tab obs offset cols)
    · rfl
    · exfalso
      apply hL
      apply containsSub_head_mem 'L' "IMIT".toList
      rw [show ("LIMIT".toList : Str) = 'L' :: "IMIT".toList from by decide] at hcontains
      exact hcontains
  · unfold get_table_stmt
    rw [if_neg (by decide : ¬ ((500 : Int) < 0))]
    simp only [List.append_assoc, List.cons_append]
    apply containsSub_append_right
    apply containsSub_append_right
    apply containsSub_append_right
    apply containsSub_append_right
    apply containsSub_cons
    apply containsSub_append_right
    apply containsSub_cons
    exact containsSub_limit500 _
  · unfold get_table_stmt
    simp only [List.append_assoc, List.cons_append]
    apply containsSub_append_right
    apply containsSub_append_right
    apply containsSub_append_right
    apply containsSub_append_right
    apply containsSub_cons
    apply containsSub_append_right
    apply containsSub_cons
    apply containsSub_append_right
    decide

/-- Witness for C8 at schema `crsp`, table `dsf`, no column subset. -/
theorem wrds_C8_witness :
    (get_table ["crsp".toList] [] "crsp".toList "dsf".toList (-1) 0 none
        = Except.ok (get_table_stmt "crsp".toList "dsf".toList (-1) 0 none) ∧
      containsSub "LIMIT".toList
        (get_table_stmt "crsp".toList "dsf".toList (-1) 0 none) = false) ∧
    (get_table ["crsp".toList] [] "crsp".toList "dsf".toList 500 0 none
        = Except.ok (get_table_stmt "crsp".toList "dsf".toList 500 0 none) ∧
      containsSub "LIMIT 500".toList
        (get_table_stmt "crsp".toList "dsf".toList 500 0 none) = true) ∧
    (get_table ["crsp".toList] [] "crsp".toList "dsf".toList (-1) 100 none
        = Except.ok (get_table_stmt "crsp".toList "dsf".toList (-1) 100 none) ∧
      containsSub "OFFSET 100".toList
        (get_table_stmt "crsp".toList "dsf".toList (-1) 100 none) = true) :=
  have h := wrds_C8_get_table_statement ["crsp".toList] [] "crsp".toList "dsf".toList
    none (-1) 0 (by decide) (by decide) (by decide) (by decide)
  have h100 := wrds_C8_get_table_statement ["crsp".toList] [] "crsp".toList "dsf".toList
    none (-1) 0 (by decide) (by decide) (by decide) (by decide)
  ⟨h.1 (by decide), h.2.1, h100.2.2⟩

/-! ## Password colon-escaping: the merge logic's own field-splitting -/

theorem replaceAux_fuel_succ (pat rep : Str) :
    ∀ (f : Nat) (s : Str), s.length ≤ f →
      replaceAux pat rep (f + 1) s = replaceAux pat rep f s := by
  intro f
  induction f with
  | zero =>
    intro s hs
    rw [List.length_eq_zero.mp (Nat.le_zero.mp hs)]
    rfl
  | succ f ih =>
    intro s hs
    cases s with
    | nil => rfl
    | cons c cs =>
      have hcs : cs.length ≤ f := by
        simpa using Nat.succ_le_succ_iff.mp hs
      simp only [replaceAux]
      split
      · rw [ih _ (le_trans (by rw [List.length_drop]; exact Nat.sub_le _ _) hcs)]
      · rw [ih _ hcs]

theorem replaceAux_fuel_ge (pat rep : Str) :
    ∀ (f : Nat) (s : Str), s.length ≤ f →
      replaceAux pat rep f s = replaceAux pat rep s.length s := by
  intro f
  induction f with
  | zero =>
    intro s hs
    rw [List.length_eq_zero.mp (Nat.le_zero.mp hs)]
    rfl
  | succ f ih =>
    intro s hs
    rcases Nat.lt_or_ge s.length (f + 1) with h | h
    · rw [replaceAux_fuel_succ pat rep f s (Nat.lt_succ_iff.mp h), ih s (Nat.lt_succ_iff.mp h)]
    · rw [Nat.le_antisymm hs h]

theorem replaceStr_nil (pat rep : Str) : replaceStr pat rep [] = [] := by
  unfold replaceStr
  split <;> rfl

theorem replaceStr_cons (pat rep : Str) (hpat : pat ≠ []) (c : Char) (cs : Str) :
    replaceStr pat rep (c :: cs) =
      if beginsWith pat (c :: cs) then
        rep ++ replaceStr pat rep (cs.drop (pat.length - 1))
      else c :: replaceStr pat rep cs := by
  unfold replaceStr
  rw [if_neg hpat, if_neg hpat, if_neg hpat]
  simp only [List.length_cons, replaceAux]
  split
  · rw [replaceAux_fuel_ge pat rep cs.length _
      (by rw [List.length_drop]; exact Nat.sub_le _ _)]
  · rfl

/-- Per-character form of the password colon-escaping. -/
def escMap : Str → Str
  | [] => []
  | c :: cs => (if c = ':' then escColon else [c]) ++ escMap cs

/-- Per-character form of the placeholder substitution done on re-parse. -/
def phMap : Str → Str
  | [] => []
  | c :: cs => (if c = ':' then colonPlaceholder else [c]) ++ phMap cs

theorem replace_colon_eq_escMap (s : Str) : replaceStr [':'] escColon s = escMap s := by
  induction s with
  | nil => rw [replaceStr_nil]; rfl
  | cons c cs ih =>
    rw [replaceStr_cons _ _ (by decide)]
    by_cases hc : c = ':'
    · subst hc
      rw [if_pos (by simp [beginsWith])]
      simp [escMap, ih]
    · rw [if_neg (by simp [beginsWith, beq_iff_eq, Ne.symm hc])]
      simp [escMap, hc, ih]

theorem mem_escMap (c : Char) (s : Str) (h : c ∈ escMap s) :
    c ∈ s ∨ c ∈ escColon := by
  induction s with
  | nil => simp [escMap] at h
  | cons x xs ih =>
    rw [escMap] at h
    rcases List.mem_append.mp h with h | h
    · by_cases hx : x = ':'
      · rw [if_pos hx] at h
        exact Or.inr h
      · rw [if_neg hx] at h
        exact Or.inl (by rw [List.mem_singleton.mp h]; exact List.mem_cons_self _ _)
    · rcases ih h with h | h
      · exact Or.inl (List.mem_cons_of_mem _ h)
      · exact Or.inr h

theorem mem_phMap (c : Char) (s : Str) (h : c ∈ phMap s) :
    c ∈ s ∨ c ∈ colonPlaceholder := by
  induction s with
  | nil => simp [phMap] at h
  | cons x xs ih =>
    rw [phMap] at h
    rcases List.mem_append.mp h with h | h
    · by_cases hx : x = ':'
      · rw [if_pos hx] at h
        exact Or.inr h
      · rw [if_neg hx] at h
        exact Or.inl (by rw [List.mem_singleton.mp h]; exact List.mem_cons_self _ _)
    · rcases ih h with h | h
      · exact Or.inl (List.mem_cons_of_mem _ h)
      · exact Or.inr h

theorem replace_esc_append (a t : Str) (ha : '\\' ∉ a) :
    replaceStr escColon colonPlaceholder (a ++ t)
      = a ++ replaceStr escColon colonPlaceholder t := by
  induction a with
  | nil => simp
  | cons c cs ih =>
    have hc : c ≠ '\\' := fun h => ha (h ▸ List.mem_cons_self _ _)
    rw [List.cons_append, replaceStr_cons _ _ (by decide)]
    rw [if_neg (by simp [escColon, beginsWith, beq_iff_eq, Ne.symm hc])]
    rw [ih (fun h => ha (List.mem_cons_of_mem _ h))]
    rfl

theorem head_escMap_append_ne_colon (cs t : Str)
    (ht : ∀ x, t.head? = some x → x ≠ ':') :
    ∀ x, (escMap cs ++ t).head? = some x → x ≠ ':' := by
  cases cs with
  | nil => simpa [escMap] using ht
  | cons c cs' =>
    intro x hx
    rw [escMap] at hx
    by_cases hc : c = ':'
    · rw [if_pos hc] at hx
      simp only [escColon, List.cons_append, List.head?_cons, Option.some.injEq] at hx
      rw [← hx]
      decide
    · rw [if_neg hc] at hx
      simp only [List.cons_append, List.head?_cons, Option.some.injEq] at hx
      rw [← hx]
      exact hc

theorem beginsWith_escColon_false (rest : Str)
    (h : ∀ x, rest.head? = some x → x ≠ ':') :
    beginsWith escColon ('\\' :: rest) = false := by
  cases rest with
  | nil => rfl
  | cons x xs =>
    have hx : x ≠ ':' := h x rfl
    simp [escColon, beginsWith, beq_iff_eq, Ne.symm hx]

theorem replace_esc_escMap (pwd : Str) :
    ∀ (t : Str), (∀ x, t.head? = some x → x ≠ ':') →
      replaceStr escColon colonPlaceholder (escMap pwd ++ t)
        = phMap pwd ++ replaceStr escColon colonPlaceholder t := by
  induction pwd with
  | nil => intro t _; simp [escMap, phMap]
  | cons c cs ih =>
    intro t ht
    by_cases hc : c = ':'
    · subst hc
      rw [show escMap (':' :: cs) = '\\' :: ':' :: escMap cs from by
        simp [escMap, escColon]]
      rw [List.cons_append, List.cons_append, replaceStr_cons _ _ (by decide)]
      rw [if_pos (by simp [escColon, beginsWith])]
      have hdrop : (escColon.length - 1 : Nat) = 1 := by decide
      rw [hdrop, List.drop_one, List.tail_cons]
      rw [ih t ht]
      rw [show phMap (':' :: cs) = colonPlaceholder ++ phMap cs from by simp [phMap]]
      rw [List.append_assoc]
    · rw [show escMap (c :: cs) = c :: escMap cs from by simp [escMap, hc]]
      rw [List.cons_append, replaceStr_cons _ _ (by decide)]
      by_cases hb : c = '\\'
      · subst hb
        rw [if_neg (by
          rw [beginsWith_escColon_false _ (head_escMap_append_ne_colon cs t ht)]
          simp)]
        rw [ih t ht]
        rw [show phMap ('\\' :: cs) = '\\' :: phMap cs from by simp [phMap]]
        rfl
      · rw [if_neg (by simp [escColon, beginsWith, beq_iff_eq, Ne.symm hb])]
        rw [ih t ht]
        rw [show phMap (c :: cs) = c :: phMap cs from by simp [phMap, hc]]
        rfl

theorem colon_not_mem_phMap (s : Str) : ':' ∉ phMap s := by
  induction s with
  | nil => simp [phMap]
  | cons c cs ih =>
    rw [phMap]
    intro h
    rcases List.mem_append.mp h with h | h
    · by_cases hc : c = ':'
      · rw [if_pos hc] at h
        exact absurd h (by decide)
      · rw [if_neg hc] at h
        exact hc (List.mem_singleton.mp h).symm
    · exact ih h

theorem replace_ph_phMap (pwd : Str) (h : '#' ∉ pwd) :
    replaceStr colonPlaceholder [':'] (phMap pwd) = pwd := by
  induction pwd with
  | nil => simp [phMap, replaceStr_nil]
  | cons c cs ih =>
    have hcs : '#' ∉ cs := fun hx => h (List.mem_cons_of_mem _ hx)
    by_cases hc : c = ':'
    · subst hc
      rw [show phMap (':' :: cs) = '#' :: ("#COLON##".toList ++ phMap cs) from by
        rw [show phMap (':' :: cs) = colonPlaceholder ++ phMap cs from by simp [phMap],
          show (colonPlaceholder : Str) = '#' :: "#COLON##".toList from by decide,
          List.cons_append]]
      rw [replaceStr_cons _ _ (by decide)]
      rw [if_pos (by
        rw [← List.cons_append,
          show ('#' :: "#COLON##".toList : Str) = colonPlaceholder from by decide]
        exact beginsWith_append_self _ _)]
      rw [show (colonPlaceholder.length - 1 : Nat) = ("#COLON##".toList : Str).length from by
        decide]
      rw [List.drop_left]
      rw [ih hcs]
      rfl
    · have hno : c ≠ '#' := fun hx => h (hx ▸ List.mem_cons_self _ _)
      rw [show phMap (c :: cs) = c :: phMap cs from by simp [phMap, hc]]
      rw [replaceStr_cons _ _ (by decide)]
      rw [if_neg (by
        rw [show (colonPlaceholder : Str) = '#' :: "#COLON##".toList from by decide]
        simp [beginsWith, beq_iff_eq, Ne.symm hno])]
      rw [ih hcs]

theorem pySplit_no_sep (sep : Char) (s : Str) (h : sep ∉ s) : pySplit sep s = [s] := by
  induction s with
  | nil => rfl
  | cons c cs ih =>
    have hc : c ≠ sep := fun hx => h (hx ▸ List.mem_cons_self _ _)
    simp only [pySplit, if_neg hc]
    rw [ih (fun hx => h (List.mem_cons_of_mem _ hx))]

theorem pySplit_append_sep (sep : Char) (a rest : Str) (ha : sep ∉ a) :
    pySplit sep (a ++ sep :: rest) = a :: pySplit sep rest := by
  induction a with
  | nil => simp [pySplit]
  | cons c cs ih =>
    have hc : c ≠ sep := fun hx => ha (hx ▸ List.mem_cons_self _ _)
    simp only [List.cons_append, pySplit, if_neg hc, List.append_eq]
    rw [ih (fun hx => ha (List.mem_cons_of_mem _ hx))]

theorem pyReadlines_concat_newline (l : Str) (h : '\n' ∉ l) :
    pyReadlines (l ++ ['\n']) = [l ++ ['\n']] := by
  induction l with
  | nil => rfl
  | cons c cs ih =>
    have hc : c ≠ '\n' := fun hx => h (hx ▸ List.mem_cons_self _ _)
    simp only [List.cons_append, pyReadlines, if_neg hc, List.append_eq]
    rw [ih (fun hx => h (List.mem_cons_of_mem _ hx))]

theorem notColon_intToStr (i : Int) : ':' ∉ intToStr i :=
  fun h => absurd (intToStr_mem ':' i h) (by decide)

theorem notBackslash_intToStr (i : Int) : '\\' ∉ intToStr i :=
  fun h => absurd (intToStr_mem '\\' i h) (by decide)

theorem notNewline_intToStr (i : Int) : '\n' ∉ intToStr i :=
  fun h => absurd (intToStr_mem '\n' i h) (by decide)

/-- Claim C6 (amended): the merge-write stores the password with each `:`
escaped as `\:`; re-parsing the written file with the merge logic's own
field-splitting yields exactly five fields whose first four are the
hostname, port, database name and username unchanged (so the identity-key
comparison is unaffected by colons in the password), and whose fifth
carries the password with each `:` replaced by the `##COLON##` placeholder
plus the line's trailing newline — the original password is recovered by
stripping that newline and mapping the placeholder back to `:` (passwords
without newline or `#` characters; the field-splitting alone does not
return the original unescaped string, contrary to the claim as stated). -/
theorem wrds_C6_amended (host db user pwd : Str) (port : Int)
    (hhostc : ':' ∉ host) (hhostb : '\\' ∉ host) (hhostn : '\n' ∉ host)
    (hdbc : ':' ∉ db) (hdbb : '\\' ∉ db) (hdbn : '\n' ∉ db)
    (huserc : ':' ∉ user) (huserb : '\\' ∉ user) (husern : '\n' ∉ user)
    (hpwdn : '\n' ∉ pwd) (hpwdh : '#' ∉ pwd) (hcolon : ':' ∈ pwd) :
    ∃ out f4,
      write_pgpass_file host port db user pwd none = Except.ok out ∧
      pyReadlines out = [out] ∧
      pgpassFields out = [host, intToStr port, db, user, f4] ∧
      replaceStr colonPlaceholder [':'] f4.dropLast = pwd := by
  have hesc : replaceStr [':'] escColon pwd = escMap pwd := replace_colon_eq_escMap pwd
  refine ⟨pgpassLine host port db user (escMap pwd) ++ ['\n'], phMap pwd ++ ['\n'],
    ?_, ?_, ?_, ?_⟩
  · unfold write_pgpass_file
    rw [hesc]
  · apply pyReadlines_concat_newline
    unfold pgpassLine
    intro hmem
    simp only [List.mem_append, List.mem_cons] at hmem
    rcases hmem with h | h | h | h | h | h | h | h | h
    · exact hhostn h
    · exact absurd h (by decide)
    · exact notNewline_intToStr port h
    · exact absurd h (by decide)
    · exact hdbn h
    · exact absurd h (by decide)
    · exact husern h
    · exact absurd h (by decide)
    · rcases mem_escMap _ _ h with h | h
      · exact hpwdn h
      · exact absurd h (by decide)
  · have hA : pgpassLine host port db user (escMap pwd) ++ ['\n']
        = (host ++ [':'] ++ intToStr port ++ [':'] ++ db ++ [':'] ++ user ++ [':'])
          ++ (escMap pwd ++ ['\n']) := by
      simp [pgpassLine, List.append_assoc]
    have hAb : '\\' ∉ (host ++ [':'] ++ intToStr port ++ [':'] ++ db ++ [':'] ++ user
        ++ [':']) := by
      intro hmem
      simp only [List.mem_append, List.mem_singleton] at hmem
      rcases hmem with ((((((h | h) | h) | h) | h) | h) | h) | h
      · exact hhostb h
      · exact absurd h (by decide)
      · exact notBackslash_intToStr port h
      · exact absurd h (by decide)
      · exact hdbb h
      · exact absurd h (by decide)
      · exact huserb h
      · exact absurd h (by decide)
    have hparse : replaceStr escColon colonPlaceholder
        (pgpassLine host port db user (escMap pwd) ++ ['\n'])
        = (host ++ [':'] ++ intToStr port ++ [':'] ++ db ++ [':'] ++ user ++ [':'])
          ++ (phMap pwd ++ ['\n']) := by
      rw [hA, replace_esc_append _ _ hAb,
        replace_esc_escMap pwd ['\n']
          (fun x hx => by
            simp only [List.head?_cons, Option.some.injEq] at hx
            rw [← hx]; decide),
        show replaceStr escColon colonPlaceholder ['\n'] = ['\n'] from by decide]
    unfold pgpassFields
    rw [hparse]
    rw [show (host ++ [':'] ++ intToStr port ++ [':'] ++ db ++ [':'] ++ user ++ [':'])
          ++ (phMap pwd ++ ['\n'])
        = host ++ ':' :: (intToStr port ++ ':' :: (db ++ ':' :: (user
          ++ ':' :: (phMap pwd ++ ['\n'])))) from by
      simp [List.append_assoc]]
    rw [pySplit_append_sep _ _ _ hhostc,
      pySplit_append_sep _ _ _ (notColon_intToStr port),
      pySplit_append_sep _ _ _ hdbc,
      pySplit_append_sep _ _ _ huserc,
      pySplit_no_sep _ _ (by
        intro hmem
        rcases List.mem_append.mp hmem with h | h
        · exact colon_not_mem_phMap pwd h
        · exact absurd h (by decide))]
  · rw [List.dropLast_concat, replace_ph_phMap pwd hpwdh]

/-- Claim C6 is false as stated: for the password `:` the merge logic's
field-splitting yields the field `##COLON##\n`, not the original
unescaped password `:`. -/
theorem wrds_C6_counterexample :
    write_pgpass_file "h".toList 9737 "wrds".toList "u".toList [':'] none
      = Except.ok "h:9737:wrds:u:\\:\n".toList ∧
    (pgpassFields "h:9737:wrds:u:\\:\n".toList).get? 4 = some "##COLON##\n".toList ∧
    (pgpassFields "h:9737:wrds:u:\\:\n".toList).get? 4 ≠ some [':'] := by
  refine ⟨by decide, by decide, by decide⟩

/-- Witness for the amended C6 at the concrete password `a:b`. -/
theorem wrds_C6_witness :
    ∃ out f4,
      write_pgpass_file "h".toList 9737 "wrds".toList "u".toList "a:b".toList none
        = Except.ok out ∧
      pyReadlines out = [out] ∧
      pgpassFields out = ["h".toList, intToStr 9737, "wrds".toList, "u".toList, f4] ∧
      replaceStr colonPlaceholder [':'] f4.dropLast = "a:b".toList :=
  wrds_C6_amended "h".toList "wrds".toList "u".toList "a:b".toList 9737
    (by decide) (by decide) (by decide) (by decide) (by decide) (by decide)
    (by decide) (by decide) (by decide) (by decide) (by decide) (by decide)
